import Mathlib

/-!
Verification of the glyph/sprite caching layer (wezterm-gui glyphcache.rs).

Shallow embedding conventions:
* `f64`/`f32` arithmetic is modelled with exact rational arithmetic (`ℚ`);
  all quantities involved are small screen-scale integers divided by small
  constants, for which the floating point computations in the source are
  exact.
* `Instant`/`Duration` are modelled as natural numbers of milliseconds.
* The texture atlas is an external collaborator; it is modelled as a
  bump allocator with a capacity, returning opaque `Nat` sprite handles,
  failing exactly when the capacity is exhausted.
* Hash maps / LRU caches are modelled as association lists where `put`
  prepends (the most recent binding wins on lookup).
* Image byte decoding is delegated to the `image` crate in the source; the
  outcome of `DecodedImage::load` is passed in as an `Except` parameter.
-/

/-- Stand-in for the style descriptor `config::TextStyle` carried inside a
glyph key.  The precise fields are irrelevant to the cache; what matters is
that the owned key stores it by value while the borrowed key refers to it,
and that equality and hashing are defined purely on field values. -/
structure TextStyle where
  font_family : String
  bold : Bool
deriving DecidableEq

/-- Owned glyph-cache key (glyphcache.rs `GlyphKey`). -/
structure GlyphKey where
  font_idx : Nat
  glyph_pos : Nat
  style : TextStyle
  followed_by_space : Bool
deriving DecidableEq

/-- Borrowed glyph-cache key (glyphcache.rs `BorrowedGlyphKey`): same field
values as `GlyphKey`, with `style` held by reference in the source. -/
structure BorrowedGlyphKey where
  font_idx : Nat
  glyph_pos : Nat
  style : TextStyle
  followed_by_space : Bool
deriving DecidableEq

/-- `BorrowedGlyphKey::to_owned`: materialize an owned key, cloning the
style.  Each call performs one allocation (the `style.clone()`). -/
def BorrowedGlyphKey.to_owned (k : BorrowedGlyphKey) : GlyphKey :=
  { font_idx := k.font_idx
    glyph_pos := k.glyph_pos
    style := k.style
    followed_by_space := k.followed_by_space }

/-- `GlyphKeyTrait::key` for the owned key: project the borrowed view. -/
def GlyphKey.key (k : GlyphKey) : BorrowedGlyphKey :=
  { font_idx := k.font_idx
    glyph_pos := k.glyph_pos
    style := k.style
    followed_by_space := k.followed_by_space }

/-- Hash of the style, field-value based. -/
def TextStyle.hashVal (s : TextStyle) : Nat :=
  (s.font_family.foldl (fun acc c => acc * 31 + c.toNat) 7) * 2 +
    (if s.bold then 1 else 0)

/-- Hash of a borrowed key: combines all field values. -/
def BorrowedGlyphKey.hashVal (k : BorrowedGlyphKey) : Nat :=
  ((k.font_idx * 1000003 + k.glyph_pos) * 2 +
      (if k.followed_by_space then 1 else 0)) * 1000003 + k.style.hashVal

/-- Hash of an owned key as a `dyn GlyphKeyTrait`: the `Hash` impl for the
trait object hashes `self.key()`, i.e. the borrowed view. -/
def GlyphKey.hashVal (k : GlyphKey) : Nat :=
  k.key.hashVal

/-- Font metrics relevant to glyph scaling (`RasterizedFontMetrics`-level
data: cell width and height in pixels, exact rationals). -/
structure FontMetrics where
  cell_width : ℚ
  cell_height : ℚ
deriving DecidableEq

/-- Output of `font.rasterize_glyph`: pixel dimensions, bearings, color. -/
structure RasterizedGlyph where
  width : Nat
  height : Nat
  bearing_x : ℚ
  bearing_y : ℚ
  has_color : Bool
deriving DecidableEq

/-- The subset of `GlyphInfo` used by `load_glyph`. -/
structure GlyphInfo where
  font_idx : Nat
  glyph_pos : Nat
  num_cells : Nat
  x_offset : ℚ
  y_offset : ℚ
deriving DecidableEq

/-- `config::AllowSquareGlyphOverflow`. -/
inductive AllowSquareGlyphOverflow where
  | Never
  | Always
  | WhenFollowedBySpace
deriving DecidableEq

/-- `y_scale = base_metrics.cell_height / idx_metrics.cell_height`. -/
def yScale (base idx : FontMetrics) : ℚ :=
  base.cell_height / idx.cell_height

/-- `x_scale = base_metrics.cell_width / (idx_metrics.cell_width / num_cells)`. -/
def xScale (base idx : FontMetrics) (num_cells : Nat) : ℚ :=
  base.cell_width / (idx.cell_width / (num_cells : ℚ))

/-- `aspect = idx_metrics.cell_height / idx_metrics.cell_width`. -/
def glyphAspect (idx : FontMetrics) : ℚ :=
  idx.cell_height / idx.cell_width

/-- Width-overflow policy computed in `load_glyph`: square-or-wide glyphs
(aspect at least 0.9) consult the configuration switch, narrow glyphs never
overflow. -/
def allowWidthOverflow (idx : FontMetrics) (cfg : AllowSquareGlyphOverflow)
    (followed_by_space : Bool) : Bool :=
  if glyphAspect idx ≥ 9 / 10 then
    match cfg with
    | .Never => false
    | .Always => true
    | .WhenFollowedBySpace => followed_by_space
  else
    false

/-- Scale selection in `load_glyph`: default to `y_scale`; if width overflow
is not allowed and y-scaling would make the glyph wider than `num_cells`
cells, use `x_scale` instead. -/
def chooseScale (base idx : FontMetrics) (glyph : RasterizedGlyph)
    (info : GlyphInfo) (cfg : AllowSquareGlyphOverflow)
    (followed_by_space : Bool) : ℚ :=
  if allowWidthOverflow idx cfg followed_by_space = false ∧
      yScale base idx * (glyph.width : ℚ) >
        base.cell_width * (info.num_cells : ℚ) then
    xScale base idx info.num_cells
  else
    yScale base idx

/-- Errors surfaced by the cache: atlas exhaustion is the only failure this
layer produces itself; a decode failure constructor exists so that we can
state that it is never produced. -/
inductive Err where
  | atlasFull
  | decodeFailed
deriving DecidableEq

/-- A pixel buffer, modelled by its dimensions only. -/
structure Image where
  width : Nat
  height : Nat
deriving DecidableEq

/-- The texture atlas, an external collaborator, modelled as a bump
allocator with a fixed capacity. -/
structure Atlas where
  used : Nat
  cap : Nat
deriving DecidableEq

/-- `Atlas::allocate`: returns a fresh sprite handle or fails when the
atlas is exhausted. -/
def Atlas.allocate (a : Atlas) (img : Image) : Except Err (Nat × Atlas) :=
  if a.used < a.cap then
    .ok (a.used, { used := a.used + 1, cap := a.cap })
  else
    .error .atlasFull

/-- `Atlas::allocate_with_padding`: padding does not affect the handle
bookkeeping in this model. -/
def Atlas.allocate_with_padding (a : Atlas) (img : Image)
    (padding : Option Nat) : Except Err (Nat × Atlas) :=
  a.allocate img

/-- `Atlas::clear`: resets the allocator, invalidating all sprites. -/
def Atlas.clear (a : Atlas) : Atlas :=
  { used := 0, cap := a.cap }

/-- Cached rendering result for a glyph (glyphcache.rs `CachedGlyph`),
`texture` is `none` for whitespace glyphs. -/
structure CachedGlyph where
  has_color : Bool
  x_offset : ℚ
  y_offset : ℚ
  bearing_x : ℚ
  bearing_y : ℚ
  texture : Option Nat
  scale : ℚ
deriving DecidableEq

/-- `GlyphCache::load_glyph`, given the metrics and rasterization results
obtained from the font (external collaborators).  Whitespace glyphs
(zero width or height) produce a `CachedGlyph` with no sprite and do not
touch the atlas; other glyphs scale bearings/offsets, physically resample
when the scale is not 1 (resetting the stored scale to 1), and allocate
into the atlas. -/
def load_glyph (base idx : FontMetrics) (glyph : RasterizedGlyph)
    (info : GlyphInfo) (cfg : AllowSquareGlyphOverflow)
    (followed_by_space : Bool) (atlas : Atlas) :
    Except Err (CachedGlyph × Atlas) :=
  let scale := chooseScale base idx glyph info cfg followed_by_space
  if glyph.width = 0 ∨ glyph.height = 0 then
    .ok
      ({ has_color := glyph.has_color
         texture := none
         x_offset := info.x_offset * scale
         y_offset := info.y_offset * scale
         bearing_x := 0
         bearing_y := 0
         scale := scale }, atlas)
  else
    let bearing_x := glyph.bearing_x * scale
    let bearing_y := glyph.bearing_y * scale
    let x_offset := info.x_offset * scale
    let y_offset := info.y_offset * scale
    let scale2 := if scale ≠ 1 then 1 else scale
    match atlas.allocate { width := glyph.width, height := glyph.height } with
    | .error e => .error e
    | .ok (tex, atlas2) =>
      .ok
        ({ has_color := glyph.has_color
           texture := some tex
           x_offset := x_offset
           y_offset := y_offset
           bearing_x := bearing_x
           bearing_y := bearing_y
           scale := scale2 }, atlas2)

/-- C1: scale selection in `load_glyph`.  If width overflow is not allowed
and applying `y_scale` would make the glyph wider than `num_cells` base
cells, the applied scale factor is `x_scale`; in every other case it is
`y_scale`. -/
theorem scale_selection (base idx : FontMetrics) (glyph : RasterizedGlyph)
    (info : GlyphInfo) (cfg : AllowSquareGlyphOverflow) (fbs : Bool) :
    (allowWidthOverflow idx cfg fbs = false ∧
        yScale base idx * (glyph.width : ℚ) >
          base.cell_width * (info.num_cells : ℚ) →
      chooseScale base idx glyph info cfg fbs = xScale base idx info.num_cells)
    ∧ (¬ (allowWidthOverflow idx cfg fbs = false ∧
        yScale base idx * (glyph.width : ℚ) >
          base.cell_width * (info.num_cells : ℚ)) →
      chooseScale base idx glyph info cfg fbs = yScale base idx) := by
  unfold chooseScale
  split_ifs with hc
  · exact ⟨fun _ => rfl, fun hn => absurd hc hn⟩
  · exact ⟨fun hh => absurd hh hc, fun _ => rfl⟩

/-- Witness for C1: a concrete narrow-cell fallback glyph.  Base cell 8x16,
glyph-local cell 32x16 (aspect 0.5, so overflow is never allowed), glyph
width 100, one cell: y-scaling (scale 1) would be 100 > 8 pixels wide, so
the x-scale 8/32 = 1/4 is chosen. -/
theorem scale_selection_witness :
    chooseScale { cell_width := 8, cell_height := 16 }
        { cell_width := 32, cell_height := 16 }
        { width := 100, height := 50, bearing_x := 0, bearing_y := 0,
          has_color := false }
        { font_idx := 0, glyph_pos := 0, num_cells := 1,
          x_offset := 0, y_offset := 0 }
        .Never false
      = xScale { cell_width := 8, cell_height := 16 }
          { cell_width := 32, cell_height := 16 } 1 :=
  (scale_selection { cell_width := 8, cell_height := 16 }
      { cell_width := 32, cell_height := 16 }
      { width := 100, height := 50, bearing_x := 0, bearing_y := 0,
        has_color := false }
      { font_idx := 0, glyph_pos := 0, num_cells := 1,
        x_offset := 0, y_offset := 0 }
      .Never false).1
    ⟨by norm_num [allowWidthOverflow, glyphAspect], by norm_num [yScale]⟩

/-- C3: whitespace glyphs.  If the rasterized glyph has zero width or zero
height, `load_glyph` yields a `CachedGlyph` with no sprite, offsets equal
to the input offsets times the chosen scale, zero bearings, and performs no
atlas allocation (the atlas is returned unchanged). -/
theorem whitespace_glyph (base idx : FontMetrics) (glyph : RasterizedGlyph)
    (info : GlyphInfo) (cfg : AllowSquareGlyphOverflow) (fbs : Bool)
    (atlas : Atlas) (h : glyph.width = 0 ∨ glyph.height = 0) :
    load_glyph base idx glyph info cfg fbs atlas =
      .ok
        ({ has_color := glyph.has_color
           texture := none
           x_offset := info.x_offset * chooseScale base idx glyph info cfg fbs
           y_offset := info.y_offset * chooseScale base idx glyph info cfg fbs
           bearing_x := 0
           bearing_y := 0
           scale := chooseScale base idx glyph info cfg fbs }, atlas) := by
  unfold load_glyph
  rw [if_pos h]

/-- Witness for C3: a concrete zero-width glyph resolves to a sprite-less
cached glyph and leaves the atlas untouched. -/
theorem whitespace_glyph_witness :
    load_glyph { cell_width := 8, cell_height := 16 }
        { cell_width := 8, cell_height := 16 }
        { width := 0, height := 0, bearing_x := 3, bearing_y := 4,
          has_color := false }
        { font_idx := 0, glyph_pos := 32, num_cells := 1,
          x_offset := 2, y_offset := 5 }
        .Never false { used := 7, cap := 9 }
      = .ok
          ({ has_color := false
             texture := none
             x_offset := 2 * chooseScale { cell_width := 8, cell_height := 16 }
               { cell_width := 8, cell_height := 16 }
               { width := 0, height := 0, bearing_x := 3, bearing_y := 4,
                 has_color := false }
               { font_idx := 0, glyph_pos := 32, num_cells := 1,
                 x_offset := 2, y_offset := 5 } .Never false
             y_offset := 5 * chooseScale { cell_width := 8, cell_height := 16 }
               { cell_width := 8, cell_height := 16 }
               { width := 0, height := 0, bearing_x := 3, bearing_y := 4,
                 has_color := false }
               { font_idx := 0, glyph_pos := 32, num_cells := 1,
                 x_offset := 2, y_offset := 5 } .Never false
             bearing_x := 0
             bearing_y := 0
             scale := chooseScale { cell_width := 8, cell_height := 16 }
               { cell_width := 8, cell_height := 16 }
               { width := 0, height := 0, bearing_x := 3, bearing_y := 4,
                 has_color := false }
               { font_idx := 0, glyph_pos := 32, num_cells := 1,
                 x_offset := 2, y_offset := 5 } .Never false },
            { used := 7, cap := 9 }) :=
  whitespace_glyph { cell_width := 8, cell_height := 16 }
    { cell_width := 8, cell_height := 16 }
    { width := 0, height := 0, bearing_x := 3, bearing_y := 4,
      has_color := false }
    { font_idx := 0, glyph_pos := 32, num_cells := 1,
      x_offset := 2, y_offset := 5 }
    .Never false { used := 7, cap := 9 } (Or.inl rfl)

/-- One decoded animation frame: display duration (milliseconds) plus a
pixel buffer (glyphcache.rs `ImageFrame`). -/
structure ImageFrame where
  duration : Nat
  image : Image
deriving DecidableEq

/-- A decoded image: ordered frames, the index of the current frame and
the instant (ms) the current frame became active (`DecodedImage`). -/
structure DecodedImage where
  frame_start : Nat
  current_frame : Nat
  frames : List ImageFrame
deriving DecidableEq

/-- `DecodedImage::placeholder`: a single 1x1 frame with zero duration,
starting now. -/
def DecodedImage.placeholder (now : Nat) : DecodedImage :=
  { frame_start := now
    current_frame := 0
    frames := [{ duration := 0, image := { width := 1, height := 1 } }] }

/-- `DecodedImage::with_frames`: convert the decoder's frame list (delay
and pixel buffer per frame), starting now. -/
def DecodedImage.with_frames (fs : List (Nat × Image)) (now : Nat) :
    DecodedImage :=
  { frame_start := now
    current_frame := 0
    frames := fs.map fun p => { duration := p.1, image := p.2 } }

/-- `DecodedImage::with_single` (success case): one frame with default
duration holding the decoded buffer. -/
def DecodedImage.with_single (img : Image) (now : Nat) : DecodedImage :=
  { frame_start := now
    current_frame := 0
    frames := [{ duration := 0, image := img }] }

/-- Duration of frame `i` (source indexes `frames[i]`; out-of-range access
panics in the source and defaults here, it is unreachable in cached
states). -/
def frameDuration (d : DecodedImage) (i : Nat) : Nat :=
  (d.frames.getD i { duration := 0, image := { width := 0, height := 0 } }).duration

/-- Pixel buffer of frame `i` (same convention as `frameDuration`). -/
def frameImage (d : DecodedImage) (i : Nat) : Image :=
  (d.frames.getD i { duration := 0, image := { width := 0, height := 0 } }).image

/-- The frame-advance logic of `cached_image` for an `Animation` entry
(glyphcache.rs lines 597-615): when there is more than one frame, compute
the due instant of the current frame; if it has passed, advance
`current_frame` by one (wrapping to 0) and reset `frame_start` to now,
then report the due instant of the (possibly new) current frame.  With at
most one frame nothing is due. -/
def animStep (d : DecodedImage) (now : Nat) : DecodedImage × Option Nat :=
  if 1 < d.frames.length then
    let next_due := d.frame_start + frameDuration d d.current_frame
    if next_due ≤ now then
      let cf := d.current_frame + 1
      let cf := if d.frames.length ≤ cf then 0 else cf
      let d2 : DecodedImage :=
        { frame_start := now, current_frame := cf, frames := d.frames }
      (d2, some (d2.frame_start + frameDuration d2 cf))
    else
      (d, some next_due)
  else
    (d, none)

/-- `CachedImage`: single-frame images skip animation bookkeeping. -/
inductive CachedImage where
  | Animation (d : DecodedImage)
  | SingleFrame
deriving DecidableEq

/-- `wezterm_term::Underline` variants. -/
inductive Underline where
  | NoUnderline
  | Single
  | Double
  | Curly
  | Dashed
  | Dotted
deriving DecidableEq

/-- Line-decoration cache key (glyphcache.rs `LineKey`). -/
structure LineKey where
  strike_through : Bool
  underline : Underline
  overline : Bool
deriving DecidableEq

/-- Opacity levels for full blocks (`BlockAlpha`). -/
inductive BlockAlpha where
  | Full
  | Dark
  | Medium
  | Light
deriving DecidableEq

/-- Quadrant bit set (bitflags `Quadrant`). -/
structure Quadrant where
  bits : Nat
deriving DecidableEq

/-- Block-element glyph key (`BlockKey`). -/
inductive BlockKey where
  | Upper (n : Nat)
  | Lower (n : Nat)
  | Left (n : Nat)
  | Right (n : Nat)
  | Full (alpha : BlockAlpha)
  | Quadrants (q : Quadrant)
deriving DecidableEq

/-- Box-drawing glyph key (`BoxDrawingKey`). -/
inductive BoxDrawingKey where
  | LightHorizontal
  | HeavyHorizontal
  | LightVertical
  | HeavyVertical
deriving DecidableEq

/-- Custom-glyph cache key (`CustomGlyphKey`). -/
inductive CustomGlyphKey where
  | BoxDrawing (k : BoxDrawingKey)
  | Block (k : BlockKey)
deriving DecidableEq

/-- Render metrics shared with the renderer: cell size in pixels,
underline thickness and the various line rows.  The source stores them as
`isize`; they are non-negative in practice and modelled as `Nat`. -/
structure RenderMetrics where
  cell_width : Nat
  cell_height : Nat
  underline_height : Nat
  descender_row : Nat
  descender_plus_two : Nat
  strike_row : Nat
deriving DecidableEq

/-- Association-list lookup (model of `HashMap::get` / `LruCache::get`). -/
def alistGet {α β : Type} [DecidableEq α] (l : List (α × β)) (k : α) :
    Option β :=
  match l with
  | [] => none
  | (a, b) :: t => if a = k then some b else alistGet t k

/-- Association-list insert-or-replace (model of `HashMap::insert` /
`LruCache::put`). -/
def alistPut {α β : Type} [DecidableEq α] (l : List (α × β)) (k : α)
    (v : β) : List (α × β) :=
  (k, v) :: l.filter fun p => p.1 ≠ k

/-- The cache state of `GlyphCache` (the font-configuration handle is an
external collaborator and not part of the cached state). -/
structure GlyphCache where
  glyph_cache : List (GlyphKey × CachedGlyph)
  atlas : Atlas
  image_cache : List (Nat × CachedImage)
  frame_cache : List ((Nat × Nat) × Nat)
  line_glyphs : List (LineKey × Nat)
  custom_glyphs : List (CustomGlyphKey × Nat)
  metrics : RenderMetrics
deriving DecidableEq

/-- `GlyphCache::clear`: reset the atlas and drop every sprite-level
cache; the decoded-image identity cache is deliberately kept (the source
comments out `self.image_cache.clear()` as relatively expensive to
re-populate). -/
def GlyphCache.clear (c : GlyphCache) : GlyphCache :=
  { c with
    atlas := c.atlas.clear
    frame_cache := []
    glyph_cache := []
    line_glyphs := []
    custom_glyphs := [] }

/-- Full-miss tail of `cached_image` (glyphcache.rs lines 637-654):
decode (recovering from decode failure with a placeholder), allocate frame
0 into the atlas, populate the frame cache, then store either an
`Animation` entry (with the first frame's due instant) or a `SingleFrame`
entry (with no due instant). -/
def cachedImageMiss (c : GlyphCache) (id : Nat)
    (loadResult : Except Unit DecodedImage) (padding : Option Nat)
    (now : Nat) : Except Err ((Nat × Option Nat) × GlyphCache) :=
  let decoded :=
    match loadResult with
    | .ok d => d
    | .error _ => DecodedImage.placeholder now
  match c.atlas.allocate_with_padding (frameImage decoded 0) padding with
  | .error e => .error e
  | .ok (sprite, atlas2) =>
    let c2 := { c with
      atlas := atlas2
      frame_cache := alistPut c.frame_cache (id, 0) sprite }
    if 1 < decoded.frames.length then
      .ok ((sprite, some (decoded.frame_start + frameDuration decoded 0)),
        { c2 with image_cache := alistPut c2.image_cache id (.Animation decoded) })
    else
      .ok ((sprite, none),
        { c2 with image_cache := alistPut c2.image_cache id .SingleFrame })

/-- `GlyphCache::cached_image`.  `loadResult` stands for the outcome of
`DecodedImage::load` on the image bytes (delegated decoding); `now` is the
current instant in ms.  A cached `SingleFrame` whose frame-0 sprite is
still cached returns it directly; a cached `Animation` advances via
`animStep`, then returns the cached sprite for the current frame or
allocates it; otherwise the full-miss path runs. -/
def cached_image (c : GlyphCache) (id : Nat)
    (loadResult : Except Unit DecodedImage) (padding : Option Nat)
    (now : Nat) : Except Err ((Nat × Option Nat) × GlyphCache) :=
  match alistGet c.image_cache id with
  | some .SingleFrame =>
    match alistGet c.frame_cache (id, 0) with
    | some sprite => .ok ((sprite, none), c)
    | none => cachedImageMiss c id loadResult padding now
  | some (.Animation decoded0) =>
    let p := animStep decoded0 now
    let decoded := p.1
    let next := p.2
    let c2 := { c with
      image_cache := alistPut c.image_cache id (.Animation decoded) }
    match alistGet c2.frame_cache (id, decoded.current_frame) with
    | some sprite => .ok ((sprite, next), c2)
    | none =>
      match c2.atlas.allocate_with_padding
          (frameImage decoded decoded.current_frame) padding with
      | .error e => .error e
      | .ok (sprite, atlas2) =>
        let c3 := { c2 with
          atlas := atlas2
          frame_cache :=
            alistPut c2.frame_cache (id, decoded.current_frame) sprite }
        .ok ((sprite,
          some (decoded.frame_start +
            frameDuration decoded decoded.current_frame)), c3)
  | none => cachedImageMiss c id loadResult padding now

/-- C5: `clear()` empties the glyph cache, the (id, frame) sprite cache,
the line-glyph cache and the custom-glyph cache and resets the atlas,
while the decoded-image identity cache is left unchanged. -/
theorem clear_resets_sprite_caches (c : GlyphCache) :
    (GlyphCache.clear c).glyph_cache = []
    ∧ (GlyphCache.clear c).frame_cache = []
    ∧ (GlyphCache.clear c).line_glyphs = []
    ∧ (GlyphCache.clear c).custom_glyphs = []
    ∧ (GlyphCache.clear c).atlas = c.atlas.clear
    ∧ (GlyphCache.clear c).image_cache = c.image_cache :=
  ⟨rfl, rfl, rfl, rfl, rfl, rfl⟩

/-- C4: a decode failure is recovered locally.  On the decode path, a
failing `DecodedImage::load` is replaced by the 1x1 placeholder (a single
frame, current frame 0); the call then only fails if the atlas allocation
fails, and otherwise stores the placeholder as a `SingleFrame` entry and
returns its sprite with no due instant. -/
theorem decode_error_uses_placeholder (c : GlyphCache) (id now : Nat)
    (padding : Option Nat)
    (hmiss : alistGet c.image_cache id = none) :
    cached_image c id (.error ()) padding now =
      cachedImageMiss c id (.ok (DecodedImage.placeholder now)) padding now
    ∧ (DecodedImage.placeholder now).frames.length = 1
    ∧ (DecodedImage.placeholder now).current_frame = 0
    ∧ frameImage (DecodedImage.placeholder now) 0 = { width := 1, height := 1 }
    ∧ (c.atlas.used < c.atlas.cap →
        cached_image c id (.error ()) padding now =
          .ok ((c.atlas.used, none),
            { c with
              atlas := { used := c.atlas.used + 1, cap := c.atlas.cap }
              frame_cache := alistPut c.frame_cache (id, 0) c.atlas.used
              image_cache := alistPut c.image_cache id .SingleFrame }))
    ∧ (¬ c.atlas.used < c.atlas.cap →
        cached_image c id (.error ()) padding now = .error .atlasFull) := by
  have h1 : cached_image c id (.error ()) padding now =
      cachedImageMiss c id (.error ()) padding now := by
    unfold cached_image
    rw [hmiss]
  have h2 : cachedImageMiss c id (.error ()) padding now =
      cachedImageMiss c id (.ok (DecodedImage.placeholder now)) padding now := rfl
  refine ⟨h1.trans h2, rfl, rfl, rfl, ?_, ?_⟩
  · intro hcap
    rw [h1]
    unfold cachedImageMiss Atlas.allocate_with_padding Atlas.allocate
    simp only [if_pos hcap]
    norm_num [DecodedImage.placeholder]
  · intro hcap
    rw [h1]
    unfold cachedImageMiss Atlas.allocate_with_padding Atlas.allocate
    simp only [if_neg hcap]

/-- Default render metrics used by concrete witnesses. -/
def mDefault : RenderMetrics :=
  { cell_width := 8, cell_height := 16, underline_height := 2,
    descender_row := 12, descender_plus_two := 14, strike_row := 7 }

/-- Concrete cache for the C4 witness: empty, room in the atlas. -/
def c4w : GlyphCache :=
  { glyph_cache := []
    atlas := { used := 0, cap := 4 }
    image_cache := []
    frame_cache := []
    line_glyphs := []
    custom_glyphs := []
    metrics := mDefault }

/-- Witness for C4: a concrete decode failure yields the placeholder
sprite and a `SingleFrame` entry, with no error. -/
theorem decode_error_uses_placeholder_witness :
    cached_image c4w 3 (.error ()) none 42 =
      .ok ((c4w.atlas.used, none),
        { c4w with
          atlas := { used := c4w.atlas.used + 1, cap := c4w.atlas.cap }
          frame_cache := alistPut c4w.frame_cache (3, 0) c4w.atlas.used
          image_cache := alistPut c4w.image_cache 3 .SingleFrame }) :=
  (decode_error_uses_placeholder c4w 3 42 none rfl).2.2.2.2.1 (by norm_num [c4w])

/-- C10: a `SingleFrame` image-cache entry whose frame-0 sprite is gone
(the state after `clear()`) does not fail and does not return a stale
handle: the call falls through to the full-miss path, re-decodes, makes a
fresh atlas allocation for frame 0, re-inserts both the frame-cache and
image-cache entries, and returns the new sprite with no due instant. -/
theorem single_frame_refreshed (c : GlyphCache) (id now : Nat)
    (padding : Option Nat) (d : DecodedImage)
    (h1 : alistGet c.image_cache id = some .SingleFrame)
    (h2 : alistGet c.frame_cache (id, 0) = none)
    (h3 : d.frames.length = 1)
    (h4 : c.atlas.used < c.atlas.cap) :
    cached_image c id (.ok d) padding now =
      .ok ((c.atlas.used, none),
        { c with
          atlas := { used := c.atlas.used + 1, cap := c.atlas.cap }
          frame_cache := alistPut c.frame_cache (id, 0) c.atlas.used
          image_cache := alistPut c.image_cache id .SingleFrame }) := by
  unfold cached_image
  simp only [h1, h2]
  unfold cachedImageMiss Atlas.allocate_with_padding Atlas.allocate
  simp only [if_pos h4, h3]
  norm_num

/-- Concrete cache for the C10 witness: image 9 is known as `SingleFrame`
but its sprite is absent (post-`clear()` state). -/
def c10w : GlyphCache :=
  { glyph_cache := []
    atlas := { used := 2, cap := 5 }
    image_cache := [(9, .SingleFrame)]
    frame_cache := []
    line_glyphs := []
    custom_glyphs := []
    metrics := mDefault }

/-- Witness for C10 at a concrete post-clear state. -/
theorem single_frame_refreshed_witness :
    cached_image c10w 9
        (.ok (DecodedImage.with_single { width := 3, height := 3 } 0)) none 5 =
      .ok ((c10w.atlas.used, none),
        { c10w with
          atlas := { used := c10w.atlas.used + 1, cap := c10w.atlas.cap }
          frame_cache := alistPut c10w.frame_cache (9, 0) c10w.atlas.used
          image_cache := alistPut c10w.image_cache 9 .SingleFrame }) :=
  single_frame_refreshed c10w 9 5 none
    (DecodedImage.with_single { width := 3, height := 3 } 0)
    rfl rfl rfl (by norm_num [c10w])

/-- The invariant claimed for decoded images: at least one frame, and the
current frame is a valid index. -/
def DecodedImage.wellFormed (d : DecodedImage) : Prop :=
  d.frames ≠ [] ∧ d.current_frame < d.frames.length

/-- Counterexample for C9: `with_frames` applied to an empty decoded
frame list (e.g. a container whose multi-frame decode yields no frames)
produces a `DecodedImage` with empty `frames`, so `current_frame = 0` is
not a valid index. -/
theorem decoded_image_empty_frames :
    ¬ (DecodedImage.with_frames [] 0).wellFormed
    ∧ (DecodedImage.with_frames [] 0).frames = []
    ∧ (DecodedImage.with_frames [] 0).current_frame = 0 := by
  refine ⟨?_, rfl, rfl⟩
  intro hwf
  exact hwf.1 rfl

/-- C9 (amended): `placeholder` and `with_single` always establish the
invariant; `with_frames` establishes it whenever the decoded frame list
is non-empty; and the frame advance performed by `cached_image`
(`animStep`) preserves it. -/
theorem decoded_image_wf (now : Nat) :
    (DecodedImage.placeholder now).wellFormed
    ∧ (∀ img, (DecodedImage.with_single img now).wellFormed)
    ∧ (∀ fs, fs ≠ [] → (DecodedImage.with_frames fs now).wellFormed)
    ∧ (∀ d, d.wellFormed → ((animStep d now).1).wellFormed) := by
  refine ⟨⟨by simp [DecodedImage.placeholder], by simp [DecodedImage.placeholder]⟩,
    fun img => ⟨by simp [DecodedImage.with_single], by simp [DecodedImage.with_single]⟩,
    fun fs hfs => ⟨by simp [DecodedImage.with_frames, hfs], ?_⟩, ?_⟩
  · simpa [DecodedImage.with_frames, List.length_pos] using hfs
  · intro d hd
    unfold animStep
    by_cases hlen : 1 < d.frames.length
    · rw [if_pos hlen]
      by_cases hdue : d.frame_start + frameDuration d d.current_frame ≤ now
      · rw [if_pos hdue]
        refine ⟨hd.1, ?_⟩
        by_cases hwrap : d.frames.length ≤ d.current_frame + 1
        · simp only [if_pos hwrap]
          omega
        · simp only [if_neg hwrap]
          omega
      · rw [if_neg hdue]
        exact hd
    · rw [if_neg hlen]
      exact hd

/-- Witness for C9 (amended): a concrete non-empty frame list. -/
theorem decoded_image_wf_witness :
    (DecodedImage.with_frames [(100, { width := 1, height := 1 })] 0).wellFormed :=
  (decoded_image_wf 0).2.2.1 [(100, { width := 1, height := 1 })] (by simp)

/-- Three frames of 100 ms each (the C2 scenario). -/
def animFrames : List ImageFrame :=
  [{ duration := 100, image := { width := 1, height := 1 } },
   { duration := 100, image := { width := 1, height := 1 } },
   { duration := 100, image := { width := 1, height := 1 } }]

/-- Cache holding image 7 as a 3-frame animation that started at t = 0,
with sprites for all three frames already in the frame cache
(sprites 40, 41, 42). -/
def animCache0 : GlyphCache :=
  { glyph_cache := []
    atlas := { used := 50, cap := 100 }
    image_cache :=
      [(7, .Animation { frame_start := 0, current_frame := 0, frames := animFrames })]
    frame_cache := [((7, 0), 40), ((7, 1), 41), ((7, 2), 42)]
    line_glyphs := []
    custom_glyphs := []
    metrics := mDefault }

/-- State after polling at t = 100: frame 1, frame_start 100. -/
def animCacheA : GlyphCache :=
  { animCache0 with
    image_cache :=
      [(7, .Animation { frame_start := 100, current_frame := 1, frames := animFrames })] }

/-- State after polling at t = 200: frame 2, frame_start 200. -/
def animCacheB : GlyphCache :=
  { animCache0 with
    image_cache :=
      [(7, .Animation { frame_start := 200, current_frame := 2, frames := animFrames })] }

/-- State after a lone poll at t = 250 from the start state: a single call
advances exactly one frame, so this holds frame 1 with frame_start 250. -/
def animCacheSingle : GlyphCache :=
  { animCache0 with
    image_cache :=
      [(7, .Animation { frame_start := 250, current_frame := 1, frames := animFrames })] }

/-- Current frame index recorded for an animated image id. -/
def animCurrentFrame (c : GlyphCache) (id : Nat) : Option Nat :=
  match alistGet c.image_cache id with
  | some (.Animation d) => some d.current_frame
  | _ => none

/-- Frame start instant recorded for an animated image id. -/
def animFrameStart (c : GlyphCache) (id : Nat) : Option Nat :=
  match alistGet c.image_cache id with
  | some (.Animation d) => some d.frame_start
  | _ => none

/-- Counterexample for C2: a single `cached_image` call made 250 ms after
the animation started advances only one frame.  It yields frame index 1
(sprite 41), not 2, with the next due instant 350 = 250 + 100 (frame_start
at the transition plus the new frame's duration). -/
theorem animation_single_poll :
    cached_image animCache0 7 (.error ()) none 250 =
      .ok ((41, some 350), animCacheSingle)
    ∧ animCurrentFrame animCacheSingle 7 = some 1
    ∧ animCurrentFrame animCacheSingle 7 ≠ some 2 := by
  refine ⟨rfl, rfl, by decide⟩

/-- C2 (amended): when the caller polls at each reported due instant
(t = 100 and t = 200) as the cache contract prescribes, a call at t = 250
yields current frame index 2 and reports next-due 300 ms, which equals the
frame_start recorded at the 200 ms transition plus the 100 ms frame
duration. -/
theorem animation_due_polls :
    cached_image animCache0 7 (.error ()) none 100 = .ok ((41, some 200), animCacheA)
    ∧ cached_image animCacheA 7 (.error ()) none 200 = .ok ((42, some 300), animCacheB)
    ∧ cached_image animCacheB 7 (.error ()) none 250 = .ok ((42, some 300), animCacheB)
    ∧ animCurrentFrame animCacheB 7 = some 2
    ∧ animFrameStart animCacheB 7 = some 200
    ∧ 200 + 100 = 300 :=
  ⟨rfl, rfl, rfl, rfl, rfl, rfl⟩

/-- Glyph-cache lookup via a borrowed key: the `dyn GlyphKeyTrait` map
compares `self.key()` of the stored owned key against the borrowed lookup
key, on field values only. -/
def glyph_cache_get (cache : List (GlyphKey × CachedGlyph))
    (k : BorrowedGlyphKey) : Option CachedGlyph :=
  match cache with
  | [] => none
  | (gk, v) :: rest => if gk.key = k then some v else glyph_cache_get rest k

/-- `GlyphCache::cached_glyph` restricted to the cache bookkeeping: build
the borrowed key from the request, return the shared cached entry on a
hit, otherwise store `loaded` (the `load_glyph` result) under the owned
key.  The final component counts key materializations (`to_owned`, i.e.
the style clone): zero on the hit path, one on the miss path. -/
def cached_glyph (cache : List (GlyphKey × CachedGlyph))
    (font_idx glyph_pos : Nat) (style : TextStyle)
    (followed_by_space : Bool) (loaded : CachedGlyph) :
    CachedGlyph × List (GlyphKey × CachedGlyph) × Nat :=
  let key : BorrowedGlyphKey :=
    { font_idx := font_idx, glyph_pos := glyph_pos, style := style,
      followed_by_space := followed_by_space }
  match glyph_cache_get cache key with
  | some entry => (entry, cache, 0)
  | none => (loaded, (key.to_owned, loaded) :: cache, 1)

/-- C6: an owned `GlyphKey` and a borrowed `BorrowedGlyphKey` built from
identical field values are equal as cache keys and hash identically, and
a `cached_glyph` lookup with the borrowed key returns exactly the entry
inserted under the owned key, without materializing a key (zero
allocations on the hit path). -/
theorem borrowed_key_lookup (fi gp : Nat) (st : TextStyle) (fbs : Bool)
    (v loaded : CachedGlyph) (rest : List (GlyphKey × CachedGlyph)) :
    GlyphKey.key
        { font_idx := fi, glyph_pos := gp, style := st, followed_by_space := fbs }
      = { font_idx := fi, glyph_pos := gp, style := st, followed_by_space := fbs }
    ∧ GlyphKey.hashVal
        { font_idx := fi, glyph_pos := gp, style := st, followed_by_space := fbs }
      = BorrowedGlyphKey.hashVal
        { font_idx := fi, glyph_pos := gp, style := st, followed_by_space := fbs }
    ∧ cached_glyph
        (({ font_idx := fi, glyph_pos := gp, style := st,
             followed_by_space := fbs }, v) :: rest) fi gp st fbs loaded
      = (v, ({ font_idx := fi, glyph_pos := gp, style := st,
               followed_by_space := fbs }, v) :: rest, 0) := by
  refine ⟨rfl, rfl, ?_⟩
  simp only [cached_glyph, glyph_cache_get]
  rw [if_pos (show GlyphKey.key
    { font_idx := fi, glyph_pos := gp, style := st, followed_by_space := fbs }
      = { font_idx := fi, glyph_pos := gp, style := st,
          followed_by_space := fbs } from rfl)]

/-- Pixel predicate of `box_drawing_sprite`: whether `draw_rect` paints
pixel (x, y) for the given box-drawing key.  The cell-sized buffer starts
transparent; `draw_rect` fills the half-open box `[min, max)`.  The cell
center is `euclid`'s `Rect::center` = size / 2 (integer division; sizes
are non-negative), light thickness is the configured underline thickness,
heavy thickness twice that, and each stroke spans from `center - half` to
`center + half` where `half = thickness / 2` (integer division, computed
in `usize` before the `isize` conversion). -/
def box_drawing_painted (m : RenderMetrics) (k : BoxDrawingKey)
    (x y : Nat) : Bool :=
  let w : Int := m.cell_width
  let h : Int := m.cell_height
  let cx : Int := (m.cell_width / 2 : Nat)
  let cy : Int := (m.cell_height / 2 : Nat)
  let light_thickness : Nat := m.underline_height
  let heavy_thickness : Nat := light_thickness * 2
  match k with
  | .LightHorizontal =>
    let half : Int := (light_thickness / 2 : Nat)
    decide (0 ≤ (x : Int) ∧ (x : Int) < w ∧
      cy - half ≤ (y : Int) ∧ (y : Int) < cy + half)
  | .HeavyHorizontal =>
    let half : Int := (heavy_thickness / 2 : Nat)
    decide (0 ≤ (x : Int) ∧ (x : Int) < w ∧
      cy - half ≤ (y : Int) ∧ (y : Int) < cy + half)
  | .LightVertical =>
    let half : Int := (light_thickness / 2 : Nat)
    decide (cx - half ≤ (x : Int) ∧ (x : Int) < cx + half ∧
      0 ≤ (y : Int) ∧ (y : Int) < h)
  | .HeavyVertical =>
    let half : Int := (heavy_thickness / 2 : Nat)
    decide (cx - half ≤ (x : Int) ∧ (x : Int) < cx + half ∧
      0 ≤ (y : Int) ∧ (y : Int) < h)

/-- Characterization of the light horizontal stroke. -/
theorem lightHorizontal_painted (m : RenderMetrics) (x y : Nat) :
    box_drawing_painted m .LightHorizontal x y = true ↔
      x < m.cell_width ∧
      m.cell_height / 2 - m.underline_height / 2 ≤ y ∧
      y < m.cell_height / 2 + m.underline_height / 2 := by
  simp only [box_drawing_painted, decide_eq_true_eq]
  omega

/-- Characterization of the heavy horizontal stroke. -/
theorem heavyHorizontal_painted (m : RenderMetrics) (x y : Nat) :
    box_drawing_painted m .HeavyHorizontal x y = true ↔
      x < m.cell_width ∧
      m.cell_height / 2 - m.underline_height ≤ y ∧
      y < m.cell_height / 2 + m.underline_height := by
  simp only [box_drawing_painted, decide_eq_true_eq]
  omega

/-- Characterization of the light vertical stroke. -/
theorem lightVertical_painted (m : RenderMetrics) (x y : Nat) :
    box_drawing_painted m .LightVertical x y = true ↔
      y < m.cell_height ∧
      m.cell_width / 2 - m.underline_height / 2 ≤ x ∧
      x < m.cell_width / 2 + m.underline_height / 2 := by
  simp only [box_drawing_painted, decide_eq_true_eq]
  omega

/-- Characterization of the heavy vertical stroke. -/
theorem heavyVertical_painted (m : RenderMetrics) (x y : Nat) :
    box_drawing_painted m .HeavyVertical x y = true ↔
      y < m.cell_height ∧
      m.cell_width / 2 - m.underline_height ≤ x ∧
      x < m.cell_width / 2 + m.underline_height := by
  simp only [box_drawing_painted, decide_eq_true_eq]
  omega

/-- Metrics with an odd (unit) underline thickness, for the C7
counterexample. -/
def m7cex : RenderMetrics :=
  { cell_width := 8, cell_height := 8, underline_height := 1,
    descender_row := 6, descender_plus_two := 8, strike_row := 4 }

/-- Counterexample for C7: with underline thickness 1 (odd), the light
horizontal stroke has `half = 1 / 2 = 0`, so the drawn rectangle is empty:
zero rows are painted, not the claimed one row (1 x thickness). -/
theorem box_light_thickness_cex :
    ((Finset.range 8).filter
        fun r => box_drawing_painted m7cex .LightHorizontal 0 r = true).card = 0
    ∧ m7cex.underline_height = 1
    ∧ (0 : Nat) ≠ 1 := by
  refine ⟨by decide, rfl, by decide⟩

/-- C7 (amended): each box-drawing variant paints a filled rectangle
centered on the cell midline, spanning the full cell width (horizontal)
or height (vertical); the painted thickness is `2 * (t / 2)` for light
variants and `2 * t` for heavy variants, where `t` is the configured
underline thickness (so an odd `t` yields `t - 1` for light strokes). -/
theorem box_drawing_centered (m : RenderMetrics) (x y : Nat)
    (hth : m.underline_height ≤ m.cell_height / 2)
    (htw : m.underline_height ≤ m.cell_width / 2)
    (hx : x < m.cell_width) (hy : y < m.cell_height) :
    (box_drawing_painted m .LightHorizontal x y = true ↔
      m.cell_height / 2 - m.underline_height / 2 ≤ y ∧
      y < m.cell_height / 2 + m.underline_height / 2)
    ∧ (box_drawing_painted m .HeavyHorizontal x y = true ↔
      m.cell_height / 2 - m.underline_height ≤ y ∧
      y < m.cell_height / 2 + m.underline_height)
    ∧ (box_drawing_painted m .LightVertical x y = true ↔
      m.cell_width / 2 - m.underline_height / 2 ≤ x ∧
      x < m.cell_width / 2 + m.underline_height / 2)
    ∧ (box_drawing_painted m .HeavyVertical x y = true ↔
      m.cell_width / 2 - m.underline_height ≤ x ∧
      x < m.cell_width / 2 + m.underline_height)
    ∧ ((Finset.range m.cell_height).filter
          (fun r => box_drawing_painted m .LightHorizontal x r = true)).card
        = 2 * (m.underline_height / 2)
    ∧ ((Finset.range m.cell_height).filter
          (fun r => box_drawing_painted m .HeavyHorizontal x r = true)).card
        = 2 * m.underline_height := by
  refine ⟨?_, ?_, ?_, ?_, ?_, ?_⟩
  · rw [lightHorizontal_painted]
    omega
  · rw [heavyHorizontal_painted]
    omega
  · rw [lightVertical_painted]
    omega
  · rw [heavyVertical_painted]
    omega
  · have hset : (Finset.range m.cell_height).filter
        (fun r => box_drawing_painted m .LightHorizontal x r = true)
        = Finset.Ico (m.cell_height / 2 - m.underline_height / 2)
            (m.cell_height / 2 + m.underline_height / 2) := by
      ext r
      simp only [Finset.mem_filter, Finset.mem_range, Finset.mem_Ico,
        lightHorizontal_painted]
      omega
    rw [hset, Nat.card_Ico]
    omega
  · have hset : (Finset.range m.cell_height).filter
        (fun r => box_drawing_painted m .HeavyHorizontal x r = true)
        = Finset.Ico (m.cell_height / 2 - m.underline_height)
            (m.cell_height / 2 + m.underline_height) := by
      ext r
      simp only [Finset.mem_filter, Finset.mem_range, Finset.mem_Ico,
        heavyHorizontal_painted]
      omega
    rw [hset, Nat.card_Ico]
    omega

/-- Metrics for the C7 witness: even thickness 2 in a 10x10 cell. -/
def m7wit : RenderMetrics :=
  { cell_width := 10, cell_height := 10, underline_height := 2,
    descender_row := 7, descender_plus_two := 9, strike_row := 5 }

/-- Witness for C7 (amended) at concrete metrics. -/
theorem box_drawing_centered_witness :
    box_drawing_painted m7wit .LightHorizontal 3 5 = true ↔
      m7wit.cell_height / 2 - m7wit.underline_height / 2 ≤ 5 ∧
      5 < m7wit.cell_height / 2 + m7wit.underline_height / 2 :=
  (box_drawing_centered m7wit 3 5 (by norm_num [m7wit]) (by norm_num [m7wit])
    (by norm_num [m7wit]) (by norm_num [m7wit])).1

/-- The `scale` helper inside `block_sprite`: ceiling, at least 1
(`f.ceil().max(1.) as usize`; arguments are non-negative). -/
def blockScale (f : ℚ) : Nat :=
  max ⌈f⌉₊ 1

/-- Row predicate of `block_sprite` for `BlockKey::Upper(num)`: row `y` is
painted iff some iteration `n < num`, `a < scale(y_eighth)` draws the
horizontal line at row `floor(n * y_eighth) + a`, where
`y_eighth = cell_height / 8` (exact in `f32` for screen-scale heights).
Painted rows are fully opaque across the cell width; all other rows stay
transparent. -/
def blockUpperPainted (cell_height num y : Nat) : Bool :=
  (List.range num).any fun n =>
    (List.range (blockScale ((cell_height : ℚ) / 8))).any fun a =>
      y == ⌊(n : ℚ) * ((cell_height : ℚ) / 8)⌋₊ + a

/-- Bridge: the rational floor of `n * (h / 8)` is natural division. -/
theorem floor_mul_eighth (n h : Nat) :
    ⌊(n : ℚ) * ((h : ℚ) / 8)⌋₊ = n * h / 8 := by
  have hcast : (n : ℚ) * ((h : ℚ) / 8) = ((n * h : ℕ) : ℚ) / ((8 : ℕ) : ℚ) := by
    push_cast
    ring
  rw [hcast, Nat.floor_div_nat, Nat.floor_natCast]

/-- Bridge: the rational ceiling of `h / 8` is `(h + 7) / 8`. -/
theorem ceil_eighth (h : Nat) : ⌈(h : ℚ) / 8⌉₊ = (h + 7) / 8 := by
  apply le_antisymm
  · rw [Nat.ceil_le]
    rw [div_le_iff₀ (by norm_num : (0 : ℚ) < 8)]
    have hle : h ≤ (h + 7) / 8 * 8 := by omega
    exact_mod_cast hle
  · rcases Nat.eq_zero_or_pos ((h + 7) / 8) with h0 | h0
    · omega
    · have h1 : ((h + 7) / 8 - 1) * 8 < h := by omega
      have h2 : (((h + 7) / 8 - 1 : ℕ) : ℚ) < (h : ℚ) / 8 := by
        rw [lt_div_iff₀ (by norm_num : (0 : ℚ) < 8)]
        exact_mod_cast h1
      have := Nat.lt_ceil.mpr h2
      omega

/-- Bridge: `blockScale (h / 8)` in natural arithmetic. -/
theorem blockScale_eighth (h : Nat) :
    blockScale ((h : ℚ) / 8) = max ((h + 7) / 8) 1 := by
  rw [blockScale, ceil_eighth]

/-- `blockUpperPainted` in natural arithmetic. -/
theorem blockUpperPainted_iff (h num y : Nat) :
    blockUpperPainted h num y = true ↔
      ∃ n, n < num ∧ ∃ a, a < max ((h + 7) / 8) 1 ∧ y = n * h / 8 + a := by
  simp only [blockUpperPainted, List.any_eq_true, List.mem_range,
    beq_iff_eq, floor_mul_eighth, blockScale_eighth]

/-- Counterexample for C8: at cell height 7, `Upper(4)` paints only rows
0, 1, 2 — three rows — while the top half of the cell (using the spec's
own ceil-based midpoint rule) is rows 0..3; row 3 lies in the top half
but stays transparent, so the fill is not exactly the top half for every
cell size. -/
theorem block_upper_cex :
    ¬ (blockUpperPainted 7 4 3 = true) ∧ 3 < (7 + 1) / 2 := by
  refine ⟨?_, by norm_num⟩
  rw [blockUpperPainted_iff]
  rintro ⟨n, hn, a, ha, hy⟩
  omega

/-- C8 (amended): for every even cell height, `Upper(4)` paints exactly
the rows of the top half of the cell (rows `0 .. h/2 - 1`) and leaves
every bottom-half row transparent.  (For odd heights the painted region
may be either `floor(h/2)` or `ceil(h/2)` rows, e.g. 3 of 7 or 5 of 9.) -/
theorem block_upper_half (h y : Nat) (heven : h % 2 = 0) (hy : y < h) :
    blockUpperPainted h 4 y = true ↔ y < h / 2 := by
  rw [blockUpperPainted_iff]
  have hmax : max ((h + 7) / 8) 1 = (h + 7) / 8 := by
    have : 1 ≤ (h + 7) / 8 := by omega
    omega
  rw [hmax]
  constructor
  · rintro ⟨n, hn, a, ha, hyv⟩
    interval_cases n <;> omega
  · intro hlt
    by_cases h0 : y < (h + 7) / 8
    · exact ⟨0, by omega, y, h0, by omega⟩
    · by_cases h1 : y < 1 * h / 8 + (h + 7) / 8
      · exact ⟨1, by omega, y - 1 * h / 8, by omega, by omega⟩
      · by_cases h2 : y < 2 * h / 8 + (h + 7) / 8
        · exact ⟨2, by omega, y - 2 * h / 8, by omega, by omega⟩
        · exact ⟨3, by omega, y - 3 * h / 8, by omega, by omega⟩

/-- Witness for C8 (amended) at cell height 8: row 2 is painted and in
the top half. -/
theorem block_upper_half_witness :
    blockUpperPainted 8 4 2 = true ↔ 2 < 8 / 2 :=
  block_upper_half 8 2 rfl (by norm_num)
